import Mathlib

/-!
Shallow embedding of `src/index.js` of mam.client.js: the channel state
tracker, the mode/side-key controller, the fragment reassembler
(`txHashesToMessages` / `processTx`), the chain traversal loop (`fetch`),
the address derivation in `create` / `fetchSingle`, and the broken
`decode` / `fetchSingle` pair.  External collaborators (the MAM codec,
the ledger client, the hash and trit/tryte conversion primitives) are
taken as function parameters; everything the source computes itself is
modelled directly.  JavaScript `undefined` results are modelled as
`Option.none`; a thrown-and-caught error is modelled with `Except`.
-/

namespace MamClient

/-- The `channel` object built by `init` and mutated by `create` and
`changeMode`.  `side_key` and `next_root` start as `null` (`none`);
numeric fields are non-negative integers in every reachable state. -/
structure Channel where
  side_key : Option String
  mode : String
  next_root : Option String
  security : Nat
  start : Nat
  count : Nat
  next_count : Nat
  index : Nat
deriving DecidableEq, Repr

/-- A subscription record as stored by `subscribe`. -/
structure Subscription where
  channelKey : Option String
  timeout : Nat
  root : String
  next_root : Option String
  active : Bool
deriving DecidableEq, Repr

/-- The state object returned by `init`: `{ subscribed, channel, seed }`.
The source stores subscriptions as properties on an array; we model the
collection as an association list keyed by channel root. -/
structure MamState where
  subscribed : List (String × Subscription)
  channel : Channel
  seed : String
deriving DecidableEq, Repr

/-- `init(provider, seed, security)`: builds the fresh channel.  The
provider is an external handle and the default random seed comes from
`keyGen` (external randomness), so both are parameters or omitted. -/
def init (seed : String) (security : Nat) : MamState :=
  { subscribed := []
    channel :=
      { side_key := none
        mode := "public"
        next_root := none
        security := security
        start := 0
        count := 1
        next_count := 1
        index := 0 }
    seed := seed }

/-- `subscribe(state, channelRoot, channelKey)`. -/
def subscribe (state : MamState) (channelRoot : String)
    (channelKey : Option String) : MamState :=
  { state with
      subscribed :=
        (channelRoot,
          { channelKey := channelKey
            timeout := 5000
            root := channelRoot
            next_root := none
            active := true }) :: state.subscribed }

/-- JavaScript string `padEnd(n, c)` with a one-character pad string:
appends copies of `c` until the length reaches `n`; a string already of
length `n` or longer is returned unchanged (`n - length = 0` on `Nat`). -/
def padEnd (s : String) (n : Nat) (c : Char) : String :=
  s ++ String.mk (List.replicate (n - s.length) c)

/-- JavaScript truthiness of a string-or-null value: `null`/`undefined`
and the empty string are falsy, every other string is truthy. -/
def jsTruthy : Option String → Bool
  | none => false
  | some s => s ≠ ""

/-- `changeMode(state, mode, sidekey)`.  The two guard branches
`return console.log(...)` report an error and return `undefined`
without touching the state; we return the pair (returned value,
state after the call), where the returned value `none` is the
`undefined` of a rejected call.  A supplied side key is a string here
(the source's `typeof sidekey === 'string'` test selects the `padEnd`
branch), so a truthy key is padded to 81 trytes with `'9'`. -/
def changeMode (state : MamState) (mode : String) (sidekey : Option String) :
    Option MamState × MamState :=
  if mode ≠ "public" ∧ mode ≠ "private" ∧ mode ≠ "restricted" then
    (none, state)
  else if mode = "restricted" ∧ jsTruthy sidekey = false then
    (none, state)
  else
    let state1 :=
      if jsTruthy sidekey then
        { state with
            channel :=
              { state.channel with
                  side_key := some (padEnd (sidekey.getD "") 81 '9') } }
      else state
    let state2 := { state1 with channel := { state1.channel with mode := mode } }
    (some state2, state2)

/-- Result of the external codec call
`Mam.createMessage(seed, message, side_key, channel)`. -/
structure MamMsg where
  payload : String
  root : String
  next_root : String
deriving DecidableEq, Repr

/-- Result object of `create`: `{ state, payload, root, address }`. -/
structure CreateResult where
  state : MamState
  payload : String
  root : String
  address : String
deriving DecidableEq, Repr

/-- The cursor advance inside `create` (the `if` on tree exhaustion):
on `index === count - 1` move `start` to the next subtree and reset
`index`; otherwise step `index`.  Valid states have `count ≥ 1`, so the
`Nat` subtraction `count - 1` agrees with the source's integer one. -/
def advanceChannel (c : Channel) : Channel :=
  if c.index = c.count - 1 then
    { c with start := c.next_count + c.start, index := 0 }
  else
    { c with index := c.index + 1 }

/-- The attachment-address computation at the end of `create`:
`converter.trytes(Encryption.hash(81, converter.trits(mam.root.slice())))`
for any non-public mode, the root itself for public mode.  `hashF`,
`trits` and `trytes` are the external primitives; `.slice()` is a copy
and is dropped. -/
def createAddress (hashF : Nat → List Int → List Int)
    (trits : String → List Int) (trytes : List Int → String)
    (root : String) (mode : String) : String :=
  if mode ≠ "public" then trytes (hashF 81 (trits root)) else root

/-- `create(state, message)`: codec call, cursor advance, `next_root`
update, address derivation.  `createMessage` is the external codec. -/
def create (createMessage : String → String → Option String → Channel → MamMsg)
    (hashF : Nat → List Int → List Int)
    (trits : String → List Int) (trytes : List Int → String)
    (state : MamState) (message : String) : CreateResult :=
  let channel := state.channel
  let mam := createMessage state.seed message channel.side_key channel
  let channel1 := advanceChannel channel
  let channel2 := { channel1 with next_root := some mam.next_root }
  let state1 := { state with channel := channel2 }
  let address := createAddress hashF trits trytes mam.root channel2.mode
  { state := state1, payload := mam.payload, root := mam.root, address := address }

/-- The `hash` helper of the source:
`converter.trytes(Encryption.hash(rounds || 81, converter.trits(data.slice())).slice())`.
The JavaScript `rounds || 81` maps a falsy rounds value (0) to 81. -/
def hashHelper (hashF : Nat → List Int → List Int)
    (trits : String → List Int) (trytes : List Int → String)
    (data : String) (rounds : Nat) : String :=
  trytes (hashF (if rounds = 0 then 81 else rounds) (trits data))

/-- The address computation at the top of `fetchSingle`: the root is
hashed for `private`/`restricted` mode and used unchanged otherwise. -/
def deriveAddress (hashF : Nat → List Int → List Int)
    (trits : String → List Int) (trytes : List Int → String)
    (root : String) (mode : String) (rounds : Nat) : String :=
  if mode = "private" ∨ mode = "restricted" then
    hashHelper hashF trits trytes root rounds
  else root

/-! ### The fragment reassembler: `txHashesToMessages` / `processTx`

A transaction object, as consumed by `processTx`, carries the bundle
hash, the message fragment, and the fragment's index pair.  The
`bundles` accumulator (a plain JS object keyed by bundle hash) is
modelled as a map from bundle id to the optional list of
`[currentIndex, signatureMessageFragment]` pairs pushed so far. -/

structure Txo where
  bundle : String
  signatureMessageFragment : String
  currentIndex : Nat
  lastIndex : Nat
deriving DecidableEq, Repr

/-- The buffer of in-flight bundles. -/
def Bundles : Type := String → Option (List (Nat × String))

/-- The empty buffer. -/
def emptyBundles : Bundles := fun _ => none

/-- The comparator `(a, b) => b[0] < a[0]` passed to `Array.prototype.sort`.
It returns a JavaScript boolean; `ToNumber` coerces `true` to 1 and
`false` to +0, so the comparator never reports a negative number. -/
def fragCmp (a b : Nat × String) : Int :=
  if b.1 < a.1 then 1 else 0

/-- Whether a list is a single weakly ascending run for `cmp`: every
adjacent pair satisfies `cmp later earlier ≥ 0`. -/
def ascChain (cmp : α → α → Int) : List α → Bool
  | [] => true
  | [_] => true
  | x :: y :: xs => (0 ≤ cmp y x) && ascChain cmp (y :: xs)

/-- Stable insertion of `x` into `l`: `x` goes before the first element
it does not compare after. -/
def insertCmp (cmp : α → α → Int) (x : α) : List α → List α
  | [] => [x]
  | y :: ys => if cmp x y ≤ 0 then x :: y :: ys else y :: insertCmp cmp x ys

/-- Stable sort by a numeric comparator (insertion sort). -/
def sortCmp (cmp : α → α → Int) : List α → List α
  | [] => []
  | x :: xs => insertCmp cmp x (sortCmp cmp xs)

/-- Model of `Array.prototype.sort` under Node.js (V8, TimSort).
TimSort first cuts the array into maximal runs, a run being extended
while the comparator reports the next element at least as large as the
previous one (`Compare(a[i], a[i-1]) ≥ 0`); runs are then merged
stably.  When the whole array is one such run — which happens for
every input whenever the comparator never returns a negative number,
as with the boolean comparator above — there is nothing to merge and
the array is returned unchanged.  Otherwise the result is the stable
sort that TimSort computes for a consistent comparator. -/
def v8Sort (cmp : α → α → Int) (l : List α) : List α :=
  if ascChain cmp l then l else sortCmp cmp l

/-- The completion step of `processTx`:
`l.sort((a, b) => b[0] < a[0]).reduce((acc, n) => acc + n[1], '')`. -/
def bundleJoin (l : List (Nat × String)) : String :=
  (v8Sort fragCmp l).foldl (fun acc n => acc ++ n.2) ""

/-- One `processTx(txo)` step over the shared `bundles` accumulator:
push the `[currentIndex, signatureMessageFragment]` pair onto the
bundle's list (creating it on first sight), then, if the list length
equals `lastIndex + 1`, delete the entry and emit the joined payload.
Returns the updated buffer and the optional emission. -/
def processTx (bundles : Bundles) (txo : Txo) : Bundles × Option String :=
  let cur :=
    match bundles txo.bundle with
    | some l => l ++ [(txo.currentIndex, txo.signatureMessageFragment)]
    | none => [(txo.currentIndex, txo.signatureMessageFragment)]
  if cur.length = txo.lastIndex + 1 then
    (fun b => if b = txo.bundle then none else bundles b, some (bundleJoin cur))
  else
    (fun b => if b = txo.bundle then some cur else bundles b, none)

/-- The `objs.map(processTx).filter(item => item !== undefined)` pipeline
of `txHashesToMessages`, with the `bundles` object threaded through the
mapped calls in order. -/
def txsToMessagesGo (bundles : Bundles) : List Txo → List String
  | [] => []
  | t :: ts =>
    let step := processTx bundles t
    match step.2 with
    | some p => p :: txsToMessagesGo step.1 ts
    | none => txsToMessagesGo step.1 ts

/-- `txHashesToMessages` restricted to what the source computes itself:
the transaction objects come back from the external ledger client, the
reassembly is local. -/
def txsToMessages (txs : List Txo) : List String :=
  txsToMessagesGo emptyBundles txs

/-! ### The chain traversal loop: `fetch`

One iteration of the `do ... while` builds a `Reader` for the current
root and awaits `reader.next()`.  We abstract that whole external step
as an oracle `f : α → Except ε (Option (String × α))`: for a root it
either throws (`Except.error`), yields no decodable message
(`Option.none`, the falsy `message && message.value && message.value[0]`
test), or yields the message's payload together with its `nextRoot`.
The mode and side key passed to the `Reader` are folded into `f`.  The
loop itself has no bound, so it is modelled with explicit fuel: a
result that is the same for every sufficiently large fuel is the result
the terminating loop returns. -/

/-- The `do ... while (hasMessage)` body of `fetch`: on a message, push
the payload (the optional caller callback only observes it) and
continue from `nextRoot`; on no message stop with the messages and the
last root attempted; a thrown error propagates to the `catch`. -/
def fetchLoop (f : α → Except ε (Option (String × α))) :
    Nat → α → List String → Except ε (List String × α)
  | 0, root, msgs => Except.ok (msgs, root)
  | n + 1, root, msgs =>
    match f root with
    | Except.error e => Except.error e
    | Except.ok none => Except.ok (msgs, root)
    | Except.ok (some (payload, nextRoot)) =>
      fetchLoop f n nextRoot (msgs ++ [payload])

/-- `fetch(root, mode, sidekey, callback)`: the traversal loop wrapped
in `try`/`catch`.  On success the source returns `{ messages, nextRoot }`;
on a thrown error it executes `return console.error(...)`, which
returns `undefined` (the `return e` after it is unreachable), so the
caller receives `none`. -/
def fetch (f : α → Except ε (Option (String × α))) (fuel : Nat) (root : α) :
    Option (List String × α) :=
  match fetchLoop f fuel root [] with
  | Except.ok r => some r
  | Except.error _ => none

/-! ### `decode` and `fetchSingle` -/

/-- `decode(payload, sidekey, root)`: pads the key, calls
`Mam.decodeMessage(payload, key, root)` and discards its result — the
function body has no `return` statement, so the call returns
JavaScript `undefined`, modelled as `none`.  `decodeMessage` is the
external codec, passed as a parameter. -/
def decode (decodeMessage : String → Option String → String → String × String)
    (payload : String) (sidekey : Option String) (root : String) :
    Option (String × String) :=
  let key := sidekey.map (fun s => padEnd s 81 '9')
  let _ := decodeMessage payload key root
  none

/-- The destructuring `const { payload, next_root } = e` of a possibly
`undefined` value: destructuring `undefined` throws a `TypeError`. -/
def destructure : Option (String × String) → Except String (String × String)
  | none => Except.error "TypeError"
  | some pr => Except.ok pr

/-- The `for (let message of messagesGen)` loop of `fetchSingle`: each
iteration destructures the result of `decode`; a throw is caught,
logged, and the loop continues; falling off the end of the function
returns `undefined`. -/
def fetchSingleLoop
    (decodeMessage : String → Option String → String → String × String)
    (sidekey : Option String) (root : String) :
    List String → Option (String × String)
  | [] => none
  | m :: ms =>
    match destructure (decode decodeMessage m sidekey root) with
    | Except.ok pr => some pr
    | Except.error _ => fetchSingleLoop decodeMessage sidekey root ms

/-- `fetchSingle(root, mode, sidekey, rounds)`: derive the lookup
address, ask the external ledger client for the transactions at it
(`findTransactions` then `getTransactionObjects`, both parameters),
reassemble them with `txHashesToMessages`, then run the decode loop. -/
def fetchSingle (findTransactions : String → List String)
    (getTransactionObjects : List String → List Txo)
    (decodeMessage : String → Option String → String → String × String)
    (hashF : Nat → List Int → List Int)
    (trits : String → List Int) (trytes : List Int → String)
    (root : String) (mode : String) (sidekey : Option String) (rounds : Nat) :
    Option (String × String) :=
  let address := deriveAddress hashF trits trytes root mode rounds
  let hashes := findTransactions address
  let messagesGen := txsToMessages (getTransactionObjects hashes)
  fetchSingleLoop decodeMessage sidekey root messagesGen

/-! ### Concrete instances used by the witnesses and counterexamples -/

/-- A deterministic stand-in for the external codec `Mam.createMessage`. -/
def createMessageStub : String → String → Option String → Channel → MamMsg :=
  fun _ _ _ _ => { payload := "PAYLOAD", root := "ROOT", next_root := "NEXTROOT" }

/-- A stand-in for `Encryption.hash` that records the rounds argument. -/
def hashStub : Nat → List Int → List Int := fun n l => Int.ofNat n :: l

/-- A stand-in for `converter.trits`. -/
def tritsStub : String → List Int := fun s => [Int.ofNat s.length]

/-- A stand-in for `converter.trytes`. -/
def trytesStub : List Int → String := fun l => String.mk (List.replicate l.length 'T')

/-- A fetch oracle describing the finite chain `0 → 1 → 2 → 3` with a
message at roots 0, 1, 2 and nothing at root 3. -/
def chainStub : Nat → Except Unit (Option (String × Nat)) :=
  fun r => if r < 3 then Except.ok (some (Nat.repr r, r + 1)) else Except.ok none

/-- A fetch oracle that yields one message at root 0 and then throws at
root 1. -/
def errStub : Nat → Except String (Option (String × Nat)) :=
  fun r => if r = 0 then Except.ok (some ("P0", 1)) else Except.error "boom"

/-- A fragment repeated verbatim: bundle `"B"`, position 0, two
fragments declared (`lastIndex = 1`). -/
def dupTx : Txo := { bundle := "B", signatureMessageFragment := "A", currentIndex := 0, lastIndex := 1 }

/-- Fragment `(position = 0, content = "ABC")` of bundle `"B1"`, `lastIndex = 1`. -/
def fragABC : Txo := { bundle := "B1", signatureMessageFragment := "ABC", currentIndex := 0, lastIndex := 1 }

/-- Fragment `(position = 1, content = "XYZ")` of bundle `"B1"`, `lastIndex = 1`. -/
def fragXYZ : Txo := { bundle := "B1", signatureMessageFragment := "XYZ", currentIndex := 1, lastIndex := 1 }

/-- First fragment at position 0 of a ten-fragment bundle. -/
def dupPosA : Txo := { bundle := "B", signatureMessageFragment := "AAA", currentIndex := 0, lastIndex := 9 }

/-- Second fragment at the same position 0 of the same bundle. -/
def dupPosB : Txo := { bundle := "B", signatureMessageFragment := "BBB", currentIndex := 0, lastIndex := 9 }

/-! ### Helper lemmas -/

/-- A comparator that never reports a negative number sees every list as
one weakly ascending run. -/
theorem ascChain_of_nonneg {cmp : α → α → Int} (h : ∀ a b, 0 ≤ cmp a b) :
    ∀ l : List α, ascChain cmp l = true := by
  intro l
  induction l with
  | nil => rfl
  | cons x xs ih =>
    cases xs with
    | nil => rfl
    | cons y ys =>
      simp only [ascChain, Bool.and_eq_true, decide_eq_true_eq]
      exact ⟨h y x, ih⟩

/-- Under V8's sort, a comparator that never reports a negative number
leaves the array in arrival order. -/
theorem v8Sort_of_nonneg {cmp : α → α → Int} (h : ∀ a b, 0 ≤ cmp a b)
    (l : List α) : v8Sort cmp l = l := by
  unfold v8Sort
  rw [ascChain_of_nonneg h l]
  rfl

/-- The source's fragment comparator is the boolean one: coerced to
numbers it only ever returns 0 or 1. -/
theorem fragCmp_nonneg : ∀ a b : Nat × String, 0 ≤ fragCmp a b := by
  intro a b
  unfold fragCmp
  split <;> norm_num

/-- Consequently the completion step concatenates the fragments in
arrival order, not in position order. -/
theorem bundleJoin_arrival_order (l : List (Nat × String)) :
    bundleJoin l = l.foldl (fun acc n => acc ++ n.2) "" := by
  unfold bundleJoin
  rw [v8Sort_of_nonneg fragCmp_nonneg l]

/-- The decode loop of `fetchSingle` fails on every message and falls
through to `undefined`. -/
theorem fetchSingleLoop_none
    (decodeMessage : String → Option String → String → String × String)
    (sidekey : Option String) (root : String) :
    ∀ msgs : List String, fetchSingleLoop decodeMessage sidekey root msgs = none := by
  intro msgs
  induction msgs with
  | nil => rfl
  | cons m ms ih =>
    simp only [fetchSingleLoop, decode, destructure]
    exact ih

/-- Running the traversal loop along a chain with `k` messages and then
an empty root appends exactly those `k` payloads and stops at the empty
root, for any fuel past `k`. -/
theorem fetchLoop_chain (f : α → Except ε (Option (String × α))) :
    ∀ (k : Nat) (p : Nat → String) (R : Nat → α),
      (∀ i, i < k → f (R i) = Except.ok (some (p i, R (i + 1)))) →
      f (R k) = Except.ok none →
      ∀ (n : Nat) (acc : List String), k + 1 ≤ n →
        fetchLoop f n (R 0) acc = Except.ok (acc ++ (List.range k).map p, R k) := by
  intro k
  induction k with
  | zero =>
    intro p R hmsg hend n acc hn
    cases n with
    | zero => omega
    | succ n => simp [fetchLoop, hend]
  | succ k ih =>
    intro p R hmsg hend n acc hn
    cases n with
    | zero => omega
    | succ n =>
      have h0 : f (R 0) = Except.ok (some (p 0, R 1)) := hmsg 0 (by omega)
      have ih2 := ih (fun i => p (i + 1)) (fun i => R (i + 1))
        (fun i hi => hmsg (i + 1) (by omega)) hend n (acc ++ [p 0]) (by omega)
      simp only [fetchLoop, h0]
      rw [ih2]
      simp [List.range_succ_eq_map, List.map_map, Function.comp]

/-- Running the traversal loop along a chain whose fetch throws after
`j` messages propagates the thrown error, for any fuel past `j`. -/
theorem fetchLoop_error (f : α → Except ε (Option (String × α))) :
    ∀ (j : Nat) (p : Nat → String) (R : Nat → α) (e : ε),
      (∀ i, i < j → f (R i) = Except.ok (some (p i, R (i + 1)))) →
      f (R j) = Except.error e →
      ∀ (n : Nat) (acc : List String), j + 1 ≤ n →
        fetchLoop f n (R 0) acc = Except.error e := by
  intro j
  induction j with
  | zero =>
    intro p R e hmsg herr n acc hn
    cases n with
    | zero => omega
    | succ n => simp [fetchLoop, herr]
  | succ j ih =>
    intro p R e hmsg herr n acc hn
    cases n with
    | zero => omega
    | succ n =>
      have h0 : f (R 0) = Except.ok (some (p 0, R 1)) := hmsg 0 (by omega)
      have ih2 := ih (fun i => p (i + 1)) (fun i => R (i + 1)) e
        (fun i hi => hmsg (i + 1) (by omega)) herr n (acc ++ [p 0]) (by omega)
      simp only [fetchLoop, h0]
      exact ih2

/-! ### The claims -/

/-- C1: for every valid channel (`0 ≤ index < count`, `count ≥ 1`), the
advance performed inside `create` keeps `index < count`; on the
`index = count - 1` boundary it resets `index` to 0 and grows `start`
by exactly the prior `next_count`; otherwise it steps `index` by one
and leaves `start` and `count` unchanged. -/
theorem create_advance_keeps_cursor_in_bounds
    (createMessage : String → String → Option String → Channel → MamMsg)
    (hashF : Nat → List Int → List Int)
    (trits : String → List Int) (trytes : List Int → String)
    (state : MamState) (message : String)
    (hcount : 1 ≤ state.channel.count)
    (hidx : state.channel.index < state.channel.count) :
    (create createMessage hashF trits trytes state message).state.channel.index
        < (create createMessage hashF trits trytes state message).state.channel.count
    ∧ (create createMessage hashF trits trytes state message).state.channel.count
        = state.channel.count
    ∧ (state.channel.index = state.channel.count - 1 →
        (create createMessage hashF trits trytes state message).state.channel.index = 0
        ∧ (create createMessage hashF trits trytes state message).state.channel.start
            = state.channel.start + state.channel.next_count)
    ∧ (state.channel.index ≠ state.channel.count - 1 →
        (create createMessage hashF trits trytes state message).state.channel.index
            = state.channel.index + 1
        ∧ (create createMessage hashF trits trytes state message).state.channel.start
            = state.channel.start
        ∧ (create createMessage hashF trits trytes state message).state.channel.count
            = state.channel.count) := by
  by_cases h : state.channel.index = state.channel.count - 1 <;>
    simp [create, advanceChannel, h] <;> omega

/-- C1 witness: a fresh channel (`count = 1`, `index = 0`) sits on the
subtree boundary; after one `create` the cursor is reset and `start`
has moved by `next_count`. -/
theorem create_advance_keeps_cursor_in_bounds_witness :
    1 ≤ (init "S" 2).channel.count ∧
    ((create createMessageStub hashStub tritsStub trytesStub (init "S" 2) "MSG").state.channel.index
        < (create createMessageStub hashStub tritsStub trytesStub (init "S" 2) "MSG").state.channel.count
      ∧ (create createMessageStub hashStub tritsStub trytesStub (init "S" 2) "MSG").state.channel.count
          = (init "S" 2).channel.count
      ∧ ((init "S" 2).channel.index = (init "S" 2).channel.count - 1 →
          (create createMessageStub hashStub tritsStub trytesStub (init "S" 2) "MSG").state.channel.index = 0
          ∧ (create createMessageStub hashStub tritsStub trytesStub (init "S" 2) "MSG").state.channel.start
              = (init "S" 2).channel.start + (init "S" 2).channel.next_count)
      ∧ ((init "S" 2).channel.index ≠ (init "S" 2).channel.count - 1 →
          (create createMessageStub hashStub tritsStub trytesStub (init "S" 2) "MSG").state.channel.index
              = (init "S" 2).channel.index + 1
          ∧ (create createMessageStub hashStub tritsStub trytesStub (init "S" 2) "MSG").state.channel.start
              = (init "S" 2).channel.start
          ∧ (create createMessageStub hashStub tritsStub trytesStub (init "S" 2) "MSG").state.channel.count
              = (init "S" 2).channel.count)) :=
  ⟨by decide,
    create_advance_keeps_cursor_in_bounds createMessageStub hashStub tritsStub trytesStub
      (init "S" 2) "MSG" (by decide) (by decide)⟩

/-- C2 counterexample: two copies of one fragment (`position 0` of
bundle `"B"`, `lastIndex = 1`) are pushed, the bundle's list reaches
length 2 = `lastIndex + 1`, and the payload `"AA"` is emitted even
though only one distinct position was ever recorded — the claim's
distinct-position completion test is not what the code checks. -/
theorem txsToMessages_emits_with_one_distinct_position :
    txsToMessages [dupTx, dupTx] = ["AA"]
    ∧ (processTx emptyBundles dupTx).1 dupTx.bundle = some [(0, "A")]
    ∧ (([(0, "A"), (0, "A")] : List (Nat × String)).map Prod.fst).dedup.length = 1
    ∧ (1 : Nat) ≠ dupTx.lastIndex + 1 := by decide

/-- C2 amended: a bundle's payload is emitted exactly when the number
of fragments recorded for it, counted with multiplicity (duplicates
included), reaches the ingested fragment's `lastIndex + 1`. -/
theorem processTx_emits_iff_fragment_count_reached
    (bundles : Bundles) (t : Txo) :
    ((processTx bundles t).2).isSome
      ↔ ((bundles t.bundle).getD []).length + 1 = t.lastIndex + 1 := by
  unfold processTx
  cases h : bundles t.bundle with
  | none =>
    simp only [h, Option.getD_none, List.length_nil]
    split <;> simp_all
  | some l =>
    simp only [h, Option.getD_some, List.length_append, List.length_cons, List.length_nil]
    split <;> simp_all

/-- C3 evaluation at the failing input: the boolean sort comparator
never reorders the buffer, so the two arrival orders of the `"B1"`
fragments reassemble to different payloads, and the out-of-order
arrival does not produce `"ABCXYZ"`. -/
theorem txsToMessages_depends_on_arrival_order :
    txsToMessages [fragABC, fragXYZ] = ["ABCXYZ"]
    ∧ txsToMessages [fragXYZ, fragABC] = ["XYZABC"]
    ∧ ("XYZABC" : String) ≠ "ABCXYZ" := by decide

/-- C4 counterexample: a second fragment at an already-recorded
position is appended, not overwritten — after the two pushes the buffer
of bundle `"B"` holds both pairs at position 0, and the earlier content
is still there. -/
theorem processTx_keeps_both_entries_at_same_position :
    (processTx (processTx emptyBundles dupPosA).1 dupPosB).1 "B"
        = some [(0, "AAA"), (0, "BBB")]
    ∧ (some [(0, "AAA"), (0, "BBB")] : Option (List (Nat × String))) ≠ some [(0, "BBB")]
    ∧ ([(0, "AAA"), (0, "BBB")] : List (Nat × String)).map Prod.fst = [0, 0] := by decide

/-- C4 amended: when the bundle does not complete, the incoming
fragment is appended to the bundle's buffer, earlier entries included —
a duplicate position yields two retained entries rather than an
overwrite. -/
theorem processTx_appends_fragment (bundles : Bundles) (t : Txo)
    (h : ((bundles t.bundle).getD []).length + 1 ≠ t.lastIndex + 1) :
    (processTx bundles t).1 t.bundle
      = some (((bundles t.bundle).getD [])
          ++ [(t.currentIndex, t.signatureMessageFragment)]) := by
  unfold processTx
  cases hb : bundles t.bundle with
  | none => simp_all
  | some l =>
    simp only [hb, Option.getD_some, List.length_append, List.length_cons,
      List.length_nil] at h ⊢
    split
    · omega
    · simp

/-- C4 amended witness: the duplicate-position fragment of the
counterexample is appended after the first one. -/
theorem processTx_appends_fragment_witness :
    ((((processTx emptyBundles dupPosA).1 dupPosB.bundle).getD []).length + 1
        ≠ dupPosB.lastIndex + 1)
    ∧ (processTx (processTx emptyBundles dupPosA).1 dupPosB).1 dupPosB.bundle
        = some ((((processTx emptyBundles dupPosA).1 dupPosB.bundle).getD [])
            ++ [(dupPosB.currentIndex, dupPosB.signatureMessageFragment)]) :=
  ⟨by decide, processTx_appends_fragment (processTx emptyBundles dupPosA).1 dupPosB (by decide)⟩

/-- C5: over a finite chain — messages at roots `R 0 .. R (k-1)`,
nothing at `R k` — the traversal loop of `fetch` stops by itself (the
result is the same for every fuel past `k`), returns exactly the `k`
payloads in chain order, and returns the last root attempted `R k` as
the resumption point. -/
theorem fetch_finite_chain_returns_k_messages
    (f : α → Except ε (Option (String × α)))
    (k : Nat) (p : Nat → String) (R : Nat → α)
    (hmsg : ∀ i, i < k → f (R i) = Except.ok (some (p i, R (i + 1))))
    (hend : f (R k) = Except.ok none)
    (n : Nat) (hn : k + 1 ≤ n) :
    fetch f n (R 0) = some ((List.range k).map p, R k)
    ∧ ((List.range k).map p).length = k := by
  have h := fetchLoop_chain f k p R hmsg hend n [] hn
  constructor
  · unfold fetch
    rw [h]
    simp
  · simp

/-- C5 witness: the stub chain `0 → 1 → 2 → 3` with messages at roots
0, 1, 2 and nothing at root 3 yields three payloads and resumption
point 3. -/
theorem fetch_finite_chain_returns_k_messages_witness :
    fetch chainStub 4 0 = some (["0", "1", "2"], 3) :=
  ((fetch_finite_chain_returns_k_messages chainStub 3 (fun i => Nat.repr i) (fun i => i)
      (by intro i hi; interval_cases i <;> rfl) rfl 4 (by omega)).1).trans (by decide)

/-- C6: `decode` calls the codec's `decodeMessage` but has no return
statement, so it returns `undefined`; destructuring that result in
`fetchSingle` always throws, the throw is caught, and `fetchSingle`
never returns a decoded payload. -/
theorem decode_returns_undefined_so_fetchSingle_yields_nothing
    (findTransactions : String → List String)
    (getTransactionObjects : List String → List Txo)
    (decodeMessage : String → Option String → String → String × String)
    (hashF : Nat → List Int → List Int)
    (trits : String → List Int) (trytes : List Int → String)
    (payload root mode : String) (sidekey : Option String) (rounds : Nat) :
    decode decodeMessage payload sidekey root = none
    ∧ destructure (decode decodeMessage payload sidekey root) = Except.error "TypeError"
    ∧ fetchSingle findTransactions getTransactionObjects decodeMessage hashF trits trytes
        root mode sidekey rounds = none := by
  refine ⟨rfl, rfl, ?_⟩
  unfold fetchSingle
  exact fetchSingleLoop_none decodeMessage sidekey root _

/-- C7: address derivation is a pure function of root, mode and rounds:
in public mode the address is the root itself (and deriving again
changes nothing); in private or restricted mode it is the tryte
encoding of `hash(rounds, trits(root))`; the address computed by
`create` agrees with the derivation at the 81 rounds it hardcodes. -/
theorem deriveAddress_mode_policy
    (hashF : Nat → List Int → List Int)
    (trits : String → List Int) (trytes : List Int → String)
    (root mode : String) (rounds : Nat)
    (hmode : mode = "public" ∨ mode = "private" ∨ mode = "restricted")
    (hrounds : rounds ≠ 0) :
    (mode = "public" →
      deriveAddress hashF trits trytes root mode rounds = root
      ∧ deriveAddress hashF trits trytes
          (deriveAddress hashF trits trytes root mode rounds) mode rounds
        = deriveAddress hashF trits trytes root mode rounds)
    ∧ ((mode = "private" ∨ mode = "restricted") →
        deriveAddress hashF trits trytes root mode rounds
          = trytes (hashF rounds (trits root)))
    ∧ createAddress hashF trits trytes root mode
        = deriveAddress hashF trits trytes root mode 81 := by
  rcases hmode with h | h | h <;> subst h <;>
    simp [deriveAddress, createAddress, hashHelper, hrounds]

/-- C7 witness: private mode at 81 rounds hashes the root through the
stub primitives. -/
theorem deriveAddress_mode_policy_witness :
    deriveAddress hashStub tritsStub trytesStub "ROOTX" "private" 81
      = trytesStub (hashStub 81 (tritsStub "ROOTX")) :=
  (deriveAddress_mode_policy hashStub tritsStub trytesStub "ROOTX" "private" 81
      (Or.inr (Or.inl rfl)) (by decide)).2.1 (Or.inl rfl)

/-- C8 counterexample: the stub chain yields a message at root 0 and
throws at root 1, yet `fetch` hands the caller `undefined` — neither
the error nor the accumulated payload `"P0"` is surfaced, contrary to
the claim. -/
theorem fetch_error_not_surfaced_with_messages :
    errStub 0 = Except.ok (some ("P0", 1))
    ∧ errStub 1 = Except.error "boom"
    ∧ fetch errStub 2 0 = none
    ∧ fetch errStub 2 0 ≠ some (["P0"], 1) :=
  ⟨rfl, rfl, by decide, by decide⟩

/-- C8 amended: whenever the fetch primitive throws mid-chain, the
traversal loop aborts and `fetch` returns `undefined` (the error is
only logged; the accumulated messages are discarded and the statement
returning the error value is unreachable). -/
theorem fetch_error_yields_undefined
    (f : α → Except ε (Option (String × α)))
    (j : Nat) (p : Nat → String) (R : Nat → α) (e : ε)
    (hmsg : ∀ i, i < j → f (R i) = Except.ok (some (p i, R (i + 1))))
    (herr : f (R j) = Except.error e)
    (n : Nat) (hn : j + 1 ≤ n) :
    fetch f n (R 0) = none := by
  unfold fetch
  rw [fetchLoop_error f j p R e hmsg herr n [] hn]

/-- C8 amended witness: the erroring stub chain makes `fetch` return
`undefined` after one successful message. -/
theorem fetch_error_yields_undefined_witness :
    fetch errStub 2 0 = none :=
  fetch_error_yields_undefined errStub 1 (fun _ => "P0") (fun i => i) "boom"
    (by intro i hi; interval_cases i; rfl) rfl 2 (by omega)

/-- C9: `changeMode` with an unknown mode, or with `restricted` and no
(truthy) side key, reports the error by returning `undefined` and
leaves the state — in particular `channel.mode` and `channel.side_key`
— exactly as it was. -/
theorem changeMode_rejects_without_mutation
    (state : MamState) (mode : String) (sidekey : Option String)
    (h : (mode ≠ "public" ∧ mode ≠ "private" ∧ mode ≠ "restricted")
      ∨ (mode = "restricted" ∧ jsTruthy sidekey = false)) :
    changeMode state mode sidekey = (none, state)
    ∧ ((changeMode state mode sidekey).2).channel.mode = state.channel.mode
    ∧ ((changeMode state mode sidekey).2).channel.side_key = state.channel.side_key := by
  have heq : changeMode state mode sidekey = (none, state) := by
    rcases h with h | ⟨h1, h2⟩
    · unfold changeMode
      rw [if_pos h]
    · subst h1
      simp [changeMode, h2]
  exact ⟨heq, by rw [heq], by rw [heq]⟩

/-- C9 witness: `changeMode(state, 'restricted', null)` on a fresh
state returns `undefined` and leaves the state unchanged. -/
theorem changeMode_rejects_without_mutation_witness :
    changeMode (init "SEED" 2) "restricted" none = (none, init "SEED" 2)
    ∧ ((changeMode (init "SEED" 2) "restricted" none).2).channel.mode
        = (init "SEED" 2).channel.mode
    ∧ ((changeMode (init "SEED" 2) "restricted" none).2).channel.side_key
        = (init "SEED" 2).channel.side_key :=
  changeMode_rejects_without_mutation (init "SEED" 2) "restricted" none
    (Or.inr ⟨rfl, rfl⟩)

/-- C10: a supplied non-empty string side key of length at most 81 is
stored right-padded with `'9'` to exactly 81 characters whenever the
mode is one of the three recognised ones (and, for `restricted`, the
key is the very side key that makes the call accepted). -/
theorem changeMode_pads_side_key
    (state : MamState) (mode : String) (s : String)
    (hmode : mode = "public" ∨ mode = "private" ∨ mode = "restricted")
    (hs : s ≠ "") (hlen : s.length ≤ 81) :
    ((changeMode state mode (some s)).2).channel.side_key
      = some (s ++ String.mk (List.replicate (81 - s.length) '9'))
    ∧ (s ++ String.mk (List.replicate (81 - s.length) '9')).length = 81 := by
  constructor
  · have htru : jsTruthy (some s) = true := by simp [jsTruthy, hs]
    rcases hmode with h | h | h <;> subst h <;>
      simp [changeMode, htru, padEnd]
  · have hrep : (String.mk (List.replicate (81 - s.length) '9')).length
        = 81 - s.length := by
      simp
    rw [String.length_append, hrep]
    omega

/-- C10 witness: the side key `"ABC"` is stored as `"ABC"` followed by
78 `'9'` characters, 81 in total. -/
theorem changeMode_pads_side_key_witness :
    (((changeMode (init "SEED" 2) "restricted" (some "ABC")).2).channel.side_key
        = some ("ABC" ++ String.mk (List.replicate (81 - "ABC".length) '9'))
      ∧ ("ABC" ++ String.mk (List.replicate (81 - "ABC".length) '9')).length = 81)
    ∧ 81 - "ABC".length = 78 :=
  ⟨changeMode_pads_side_key (init "SEED" 2) "restricted" "ABC"
      (Or.inr (Or.inr rfl)) (by decide) (by decide),
    by decide⟩

end MamClient
